import Mathlib

/-!
Verification development for the SambaNova RAG service (Fastify + Supabase).

The definitions below are a shallow embedding of the repository's
TypeScript source:
  - `src/server.ts` (`buildApp`, the `/query` handler's document selection),
  - `src/supabase-rag-system.ts` (`SupabaseRAGSystem`: cosine similarity,
    the filter/sort/slice ranking pipeline, the in-memory document cache,
    and `enforceRateLimit`),
  - `src/mastra-rag-system.ts` (`SambaNovaProvider.enforceRateLimit`,
    `MastraRAGSystem.query`, `vectorSearchTool.execute`).

JavaScript numbers are modelled as rationals (`ℚ`); `Math.sqrt` is an
uninterpreted parameter of the cosine-similarity model, constrained only
where a claim needs a property of it (such as `sqrt 0 = 0`).  Wall-clock
time is modelled as integer milliseconds, and `setTimeout` sleeps are
assumed exact, so `Date.now()` after a sleep of `w` starting at `t`
returns `t + w`.
-/

/-- Character-list model of JavaScript `String.prototype.startsWith`
restricted to offset 0: the first list is matched against the front of
the second. -/
def leadingMatch : List Char → List Char → Bool
  | [], _ => true
  | _ :: _, [] => false
  | c :: cs, d :: ds => c == d && leadingMatch cs ds

/-- Character-list model of JavaScript `String.prototype.includes`:
`occursIn pat hay` is true when `pat` occurs contiguously in `hay`. -/
def occursIn (pat : List Char) : List Char → Bool
  | [] => leadingMatch pat []
  | c :: cs => leadingMatch pat (c :: cs) || occursIn pat cs

/-- Character list of a string with every character lower-cased; models
JavaScript `s.toLowerCase()` on the ASCII strings the service handles. -/
def lowerStr (s : String) : List Char :=
  s.data.map Char.toLower

/-- The check `lowerIncludes hay pat` models
`hay.toLowerCase().includes(pat.toLowerCase())` in JavaScript. -/
def lowerIncludes (hay pat : String) : Bool :=
  occursIn (lowerStr pat) (lowerStr hay)

/-- The fields of a stored document row (interface `SupabaseDocument` in
`supabase-rag-system.ts`) that the `/query` handler's selection logic
reads: `id`, `file_name`, `source` and `tags`. -/
structure SupabaseDocument where
  id : String
  file_name : String
  source : String
  tags : List String
  deriving DecidableEq, Repr

/-- The selection-relevant fields of interface `EnhancedQueryRequest` in
`server.ts`.  A field that is absent from the JSON body is `none`; a
field supplied as an explicit (possibly empty) array is `some`. -/
structure EnhancedQueryRequest where
  documentIds : Option (List String)
  documentNames : Option (List String)
  tags : Option (List String)
  useAllDocuments : Bool
  deriving DecidableEq, Repr

/-- The name filter of the `/query` handler: some requested name is a
case-insensitive substring of the document's `file_name` or `source`. -/
def nameMatches (names : List String) (doc : SupabaseDocument) : Bool :=
  names.any (fun name =>
    lowerIncludes doc.file_name name || lowerIncludes doc.source name)

/-- The tag filter of the `/query` handler: the document carries at least
one of the requested tags (`tags.some(tag => doc.tags.includes(tag))`). -/
def tagMatches (tags : List String) (doc : SupabaseDocument) : Bool :=
  tags.any (fun tag => doc.tags.contains tag)

/-- The id filter of the `/query` handler
(`documentIds.includes(doc.id)`). -/
def idMatches (ids : List String) (doc : SupabaseDocument) : Bool :=
  ids.contains doc.id

/-- The document-selection logic of the `/query` route handler in
`buildApp` (`server.ts`): three sequential filter blocks guarded by
`field && field.length > 0`, each either replacing the selection when it
is currently empty or intersecting with it by document id, followed by
the fallback-to-all step guarded by
`useAllDocuments || (selected.length === 0 && !documentIds && !documentNames && !tags)`.
Note JavaScript truthiness: an *empty array* is truthy, so `!field` is
true only when the field is absent (`none` here).  Returns the selected
documents and the accumulated `selectionCriteria` descriptions. -/
def selectDocuments (req : EnhancedQueryRequest) (allDocs : List SupabaseDocument) :
    List SupabaseDocument × List String :=
  let step1 : List SupabaseDocument × List String :=
    match req.documentIds with
    | some ids =>
      if ids.length > 0 then
        (allDocs.filter (idMatches ids),
         ["Document IDs: " ++ String.intercalate ", " ids])
      else ([], [])
    | none => ([], [])
  let step2 : List SupabaseDocument × List String :=
    match req.documentNames with
    | some names =>
      if names.length > 0 then
        let nameSelected := allDocs.filter (nameMatches names)
        ((if step1.1.length > 0 then
            step1.1.filter (fun doc => nameSelected.any (fun ns => ns.id == doc.id))
          else nameSelected),
         step1.2 ++ ["Document Names: " ++ String.intercalate ", " names])
      else step1
    | none => step1
  let step3 : List SupabaseDocument × List String :=
    match req.tags with
    | some tags =>
      if tags.length > 0 then
        let tagSelected := allDocs.filter (tagMatches tags)
        ((if step2.1.length > 0 then
            step2.1.filter (fun doc => tagSelected.any (fun ts => ts.id == doc.id))
          else tagSelected),
         step2.2 ++ ["Tags: " ++ String.intercalate ", " tags])
      else step2
    | none => step2
  if req.useAllDocuments ||
      (step3.1.length == 0 && req.documentIds.isNone &&
       req.documentNames.isNone && req.tags.isNone) then
    (allDocs, step3.2 ++ ["All available documents"])
  else
    step3

/-- A concrete one-document collection used to exercise the selector. -/
def demoDoc : SupabaseDocument :=
  { id := "1", file_name := "report.csv", source := "report.csv", tags := ["financial"] }

/-- C8: a request that supplies no selection criteria at all selects the
full document set and appends the "All available documents" description. -/
theorem c8_no_criteria_selects_all (allDocs : List SupabaseDocument) :
    selectDocuments ⟨none, none, none, false⟩ allDocs =
      (allDocs, ["All available documents"]) := rfl

/-- C1 counterexample: with `documentNames = ["zzz"]` (matching no
document) and `tags = ["financial"]` (matching `demoDoc`), the handler
selects `[demoDoc]`, while the set of documents satisfying both filters
is empty — the tag filter replaced the empty name-filter result instead
of intersecting with it. -/
theorem c1_counterexample :
    (selectDocuments ⟨none, some ["zzz"], some ["financial"], false⟩ [demoDoc]).1 =
      [demoDoc] ∧
    [demoDoc].filter (fun d => nameMatches ["zzz"] d && tagMatches ["financial"] d) =
      [] := by
  constructor <;> decide

/-- C1 amended: for a request with non-empty `documentNames` and
non-empty `tags` (and no id filter), the selection is the intersection
by document id of the name matches and the tag matches *whenever the
name filter matches at least one document*; when the name filter matches
no document, the selection is the tag-filter result alone. -/
theorem c1_amended_name_tag_selection (allDocs : List SupabaseDocument)
    (names tags : List String) (hn : names ≠ []) (ht : tags ≠ []) :
    (allDocs.filter (nameMatches names) ≠ [] →
      (selectDocuments ⟨none, some names, some tags, false⟩ allDocs).1 =
        (allDocs.filter (nameMatches names)).filter
          (fun doc => (allDocs.filter (tagMatches tags)).any (fun ts => ts.id == doc.id))) ∧
    (allDocs.filter (nameMatches names) = [] →
      (selectDocuments ⟨none, some names, some tags, false⟩ allDocs).1 =
        allDocs.filter (tagMatches tags)) := by
  have hn' : 0 < names.length := List.length_pos.mpr hn
  have ht' : 0 < tags.length := List.length_pos.mpr ht
  constructor
  · intro hne
    have hlen : 0 < (allDocs.filter (nameMatches names)).length := List.length_pos.mpr hne
    simp [selectDocuments, hn', ht', hlen]
  · intro hemp
    simp [selectDocuments, hn', ht', hemp]

/-- C1 amended, witness: a concrete run in which the name filter matches
a document and the selection equals the intersection by id. -/
theorem c1_amended_witness :
    (selectDocuments ⟨none, some ["report"], some ["financial"], false⟩ [demoDoc]).1 =
      ([demoDoc].filter (nameMatches ["report"])).filter
        (fun doc => ([demoDoc].filter (tagMatches ["financial"])).any
          (fun ts => ts.id == doc.id)) :=
  (c1_amended_name_tag_selection [demoDoc] ["report"] ["financial"]
    (by decide) (by decide)).1 (by decide)

/-- C10: a request that supplies at least one criteria field as an
explicitly empty array (and every other field absent), with
`useAllDocuments` false, does not fall back to all documents: the
selection is empty and no description is appended. -/
theorem c10_empty_array_criteria (allDocs : List SupabaseDocument)
    (idsOpt namesOpt tagsOpt : Option (List String))
    (hi : idsOpt = none ∨ idsOpt = some [])
    (hn : namesOpt = none ∨ namesOpt = some [])
    (ht : tagsOpt = none ∨ tagsOpt = some [])
    (hone : idsOpt = some [] ∨ namesOpt = some [] ∨ tagsOpt = some []) :
    selectDocuments ⟨idsOpt, namesOpt, tagsOpt, false⟩ allDocs = ([], []) := by
  rcases hi with hi | hi <;> rcases hn with hn | hn <;> rcases ht with ht | ht <;>
    subst hi <;> subst hn <;> subst ht <;>
    first
      | rfl
      | (exfalso; rcases hone with h | h | h <;> exact Option.noConfusion h)

/-- C10 witness: the concrete request `{documentIds: []}` with no other
criteria selects nothing and appends no description. -/
theorem c10_witness :
    selectDocuments ⟨some [], none, none, false⟩ [demoDoc] = ([], []) :=
  c10_empty_array_criteria [demoDoc] (some []) none none
    (Or.inr rfl) (Or.inl rfl) (Or.inl rfl) (Or.inl rfl)

/-! ## Similarity ranker (`SupabaseRAGSystem`, `supabase-rag-system.ts`) -/

/-- Metadata attached to a document and to its embedding entry
(the `metadata` objects built in `supabase-rag-system.ts`). -/
structure Metadata where
  id : String
  source : String
  tags : List String
  deriving DecidableEq, Repr

/-- Interface `Document` of `supabase-rag-system.ts` (the fields the
ranking and memory logic read). -/
structure RagDocument where
  id : String
  content : String
  metadata : Metadata
  deriving DecidableEq, Repr

/-- One entry of `SupabaseRAGSystem.embeddings`
(`{ text, embedding, metadata }`). -/
structure EmbeddingEntry where
  text : String
  embedding : List ℚ
  metadata : Metadata
  deriving DecidableEq, Repr

/-- Model of `a.reduce((sum, ai, i) => sum + ai * b[i], 0)` for equal-length
vectors: the dot product. -/
def dotProduct (a b : List ℚ) : ℚ :=
  (List.zipWith (· * ·) a b).sum

/-- Model of `v.reduce((sum, x) => sum + x * x, 0)`: the sum of squares whose
square root the source takes as the magnitude. -/
def sumOfSquares (v : List ℚ) : ℚ :=
  v.foldl (fun sum x => sum + x * x) 0

/-- Model of `SupabaseRAGSystem.cosineSimilarity`, with `Math.sqrt` kept as an
uninterpreted parameter `sq` (floating-point square roots are not exactly
representable in `ℚ`; the claims below constrain `sq` only by properties
true of `Math.sqrt`, such as `sq 0 = 0`).  The zero-magnitude guard
`if (magnitudeA === 0 || magnitudeB === 0) return 0` is modelled exactly. -/
def cosineSimilarityWith (sq : ℚ → ℚ) (a b : List ℚ) : ℚ :=
  let dp := dotProduct a b
  let magnitudeA := sq (sumOfSquares a)
  let magnitudeB := sq (sumOfSquares b)
  if magnitudeA = 0 ∨ magnitudeB = 0 then 0
  else dp / (magnitudeA * magnitudeB)

/-- One element of the `similarities` array built in
`SupabaseRAGSystem.query`: the matching document (`find` may fail, hence
`Option`), the cosine similarity to the query, and the entry's metadata. -/
structure ScoredMatch where
  document : Option RagDocument
  similarity : ℚ
  metadata : Metadata
  deriving DecidableEq, Repr

/-- The `similarities` array of `SupabaseRAGSystem.query`: one scored
entry per in-memory embedding. -/
def similarities (sq : ℚ → ℚ) (docs : List RagDocument) (embs : List EmbeddingEntry)
    (queryEmbedding : List ℚ) : List ScoredMatch :=
  embs.map (fun item =>
    { document := docs.find? (fun doc => doc.id == item.metadata.id)
      similarity := cosineSimilarityWith sq queryEmbedding item.embedding
      metadata := item.metadata })

/-- Insertion step of the stable descending-by-similarity sort: `x` is
placed before the first element whose similarity does not strictly
exceed `x`'s. -/
def insertDescBySim (x : ScoredMatch) : List ScoredMatch → List ScoredMatch
  | [] => [x]
  | y :: ys =>
    if x.similarity < y.similarity then y :: insertDescBySim x ys
    else x :: y :: ys

/-- Model of `sort((a, b) => b.similarity - a.similarity)` in
`SupabaseRAGSystem.query`.  ECMAScript `Array.prototype.sort` is
required to be stable, and a stable sort under a total preorder has a
unique result, so this stable insertion sort computes exactly the array
the source produces. -/
def sortDescBySim : List ScoredMatch → List ScoredMatch
  | [] => []
  | x :: xs => insertDescBySim x (sortDescBySim xs)

/-- The `relevantDocs` pipeline of `SupabaseRAGSystem.query`:
`similarities.filter(s => s.similarity >= threshold)
             .sort((a, b) => b.similarity - a.similarity)
             .slice(0, maxContextDocuments)`. -/
def relevantDocs (sq : ℚ → ℚ) (docs : List RagDocument) (embs : List EmbeddingEntry)
    (queryEmbedding : List ℚ) (threshold : ℚ) (maxContextDocuments : ℕ) :
    List ScoredMatch :=
  List.take maxContextDocuments
    (sortDescBySim
      ((similarities sq docs embs queryEmbedding).filter
        (fun item => decide (threshold ≤ item.similarity))))

theorem mem_insertDescBySim {a x : ScoredMatch} {l : List ScoredMatch} :
    a ∈ insertDescBySim x l ↔ a = x ∨ a ∈ l := by
  induction l with
  | nil => simp [insertDescBySim]
  | cons y ys ih =>
    by_cases h : x.similarity < y.similarity
    · simp only [insertDescBySim, if_pos h, List.mem_cons, ih]
      tauto
    · simp [insertDescBySim, if_neg h]

theorem pairwise_insertDescBySim {x : ScoredMatch} {l : List ScoredMatch}
    (h : l.Pairwise (fun a b => b.similarity ≤ a.similarity)) :
    (insertDescBySim x l).Pairwise (fun a b => b.similarity ≤ a.similarity) := by
  induction l with
  | nil => simp [insertDescBySim]
  | cons y ys ih =>
    rcases List.pairwise_cons.mp h with ⟨hy, hys⟩
    by_cases hxy : x.similarity < y.similarity
    · simp only [insertDescBySim, if_pos hxy]
      refine List.pairwise_cons.mpr ⟨?_, ih hys⟩
      intro b hb
      rcases mem_insertDescBySim.mp hb with rfl | hb
      · exact le_of_lt hxy
      · exact hy b hb
    · simp only [insertDescBySim, if_neg hxy]
      refine List.pairwise_cons.mpr ⟨?_, h⟩
      intro b hb
      rcases List.mem_cons.mp hb with rfl | hb
      · exact not_lt.mp hxy
      · exact le_trans (hy b hb) (not_lt.mp hxy)

theorem pairwise_sortDescBySim (l : List ScoredMatch) :
    (sortDescBySim l).Pairwise (fun a b => b.similarity ≤ a.similarity) := by
  induction l with
  | nil => simp [sortDescBySim]
  | cons x xs ih => exact pairwise_insertDescBySim ih

theorem mem_sortDescBySim {a : ScoredMatch} {l : List ScoredMatch} :
    a ∈ sortDescBySim l ↔ a ∈ l := by
  induction l with
  | nil => simp [sortDescBySim]
  | cons x xs ih => simp [sortDescBySim, mem_insertDescBySim, ih]

theorem filter_insertDescBySim (q : ℚ) (x : ScoredMatch) (l : List ScoredMatch) :
    (insertDescBySim x l).filter (fun s => decide (s.similarity = q)) =
      (if x.similarity = q then [x] else []) ++
        l.filter (fun s => decide (s.similarity = q)) := by
  induction l with
  | nil => by_cases hxq : x.similarity = q <;> simp [insertDescBySim, hxq]
  | cons y ys ih =>
    by_cases hxy : x.similarity < y.similarity
    · simp only [insertDescBySim, if_pos hxy, List.filter_cons]
      by_cases hyq : y.similarity = q
      · have hxq : x.similarity ≠ q := by
          intro hx
          rw [hx, hyq] at hxy
          exact lt_irrefl q hxy
        simp [hyq, hxq, ih]
      · simp [hyq, ih]
    · simp only [insertDescBySim, if_neg hxy, List.filter_cons]
      by_cases hxq : x.similarity = q <;> simp [hxq]

theorem filter_sortDescBySim (q : ℚ) (l : List ScoredMatch) :
    (sortDescBySim l).filter (fun s => decide (s.similarity = q)) =
      l.filter (fun s => decide (s.similarity = q)) := by
  induction l with
  | nil => simp [sortDescBySim]
  | cons x xs ih =>
    simp only [sortDescBySim, filter_insertDescBySim, ih, List.filter_cons]
    by_cases hxq : x.similarity = q <;> simp [hxq]

/-- C4: the ranker's output is sorted in descending order of similarity,
has length at most `maxContextDocuments`, contains only matches with
similarity at least `threshold`, and the sort is stable — for every
similarity value, the sorted list restricted to that value equals the
filtered corpus restricted to it, so ties keep original corpus order. -/
theorem c4_ranker_output (sq : ℚ → ℚ) (docs : List RagDocument)
    (embs : List EmbeddingEntry) (queryEmbedding : List ℚ)
    (threshold : ℚ) (maxContextDocuments : ℕ) :
    (relevantDocs sq docs embs queryEmbedding threshold maxContextDocuments).Pairwise
        (fun a b => b.similarity ≤ a.similarity) ∧
    (relevantDocs sq docs embs queryEmbedding threshold maxContextDocuments).length ≤
        maxContextDocuments ∧
    (∀ s ∈ relevantDocs sq docs embs queryEmbedding threshold maxContextDocuments,
        threshold ≤ s.similarity) ∧
    (∀ q : ℚ,
      (sortDescBySim ((similarities sq docs embs queryEmbedding).filter
          (fun item => decide (threshold ≤ item.similarity)))).filter
            (fun s => decide (s.similarity = q)) =
        ((similarities sq docs embs queryEmbedding).filter
          (fun item => decide (threshold ≤ item.similarity))).filter
            (fun s => decide (s.similarity = q))) := by
  refine ⟨?_, ?_, ?_, fun q => filter_sortDescBySim q _⟩
  · exact (pairwise_sortDescBySim _).sublist (List.take_sublist _ _)
  · exact List.length_take_le _ _
  · intro s hs
    have h1 : s ∈ sortDescBySim ((similarities sq docs embs queryEmbedding).filter
        (fun item => decide (threshold ≤ item.similarity))) :=
      (List.take_sublist _ _).subset hs
    have h2 := mem_sortDescBySim.mp h1
    exact of_decide_eq_true (List.mem_filter.mp h2).2

theorem sumOfSquares_eq_zero_of_all_zero {v : List ℚ} (h : ∀ x ∈ v, x = 0) :
    sumOfSquares v = 0 := by
  have key : ∀ (w : List ℚ), (∀ x ∈ w, x = 0) → ∀ acc : ℚ,
      w.foldl (fun sum x => sum + x * x) acc = acc := by
    intro w
    induction w with
    | nil => intro _ acc; rfl
    | cons x xs ih =>
      intro hw acc
      have hx : x = 0 := hw x (List.mem_cons_self x xs)
      have hxs : ∀ y ∈ xs, y = 0 := fun y hy => hw y (List.mem_cons_of_mem x hy)
      simp [List.foldl_cons, hx, ih hxs]
  exact key v h 0

/-- C7: `cosineSimilarity` returns exactly 0 whenever either equal-length
input vector is all-zero — the zero-magnitude guard fires (using only
that `Math.sqrt 0 = 0`), so no division is performed and the result is
the exact value 0, not NaN and not an error. -/
theorem c7_cosine_zero_vector (sq : ℚ → ℚ) (hsq : sq 0 = 0)
    (a b : List ℚ) (_hlen : a.length = b.length)
    (h : (∀ x ∈ a, x = 0) ∨ (∀ x ∈ b, x = 0)) :
    cosineSimilarityWith sq a b = 0 := by
  unfold cosineSimilarityWith
  rcases h with h | h
  · rw [sumOfSquares_eq_zero_of_all_zero h, hsq]
    simp
  · rw [sumOfSquares_eq_zero_of_all_zero h, hsq]
    simp

/-- C7 witness: the all-zero vector against `[1, 2]` yields exactly 0,
for a concrete square-root model. -/
theorem c7_witness :
    (fun q : ℚ => q) 0 = 0 ∧ ([(0 : ℚ), 0]).length = ([(1 : ℚ), 2]).length ∧
    cosineSimilarityWith (fun q => q) [0, 0] [1, 2] = 0 :=
  ⟨rfl, rfl,
    c7_cosine_zero_vector (fun q => q) rfl [0, 0] [1, 2] rfl
      (Or.inl (by intro x hx; rcases List.mem_cons.mp hx with rfl | hx' <;> simp_all))⟩

/-! ## The query orchestration of `SupabaseRAGSystem.query` -/

/-- The exact no-relevant-information message returned by
`SupabaseRAGSystem.query` when no document passes the threshold. -/
def noRelevantMessage : String :=
  "I couldn't find relevant information in the uploaded documents to answer your question."

/-- Outcome of the ranking phase of `SupabaseRAGSystem.query`: either the
early no-relevant-information return (carrying the literal response,
context and confidence of the source), or a call to the external
generation service with the assembled context string. -/
inductive SupaQueryOutcome where
  | noRelevant (response : String) (context : List RagDocument) (confidence : ℚ)
  | generateCall (relevant : List ScoredMatch) (context : String)
  deriving DecidableEq, Repr

/-- The document content read as `item.document.content` in the context
assembly (the source uses a non-null assertion on `find`'s result). -/
def scoredContent (s : ScoredMatch) : String :=
  match s.document with
  | some d => d.content
  | none => ""

/-- Model of `SupabaseRAGSystem.query` after the query embedding is available:
rank, then either return the no-relevant-information result (confidence
0, empty context, generation not called) or assemble the context string
`Source: ...\n...` joined by `\n\n---\n\n` and call generation. -/
def supaQueryStep (sq : ℚ → ℚ) (docs : List RagDocument) (embs : List EmbeddingEntry)
    (queryEmbedding : List ℚ) (threshold : ℚ) (maxContextDocuments : ℕ) :
    SupaQueryOutcome :=
  let rel := relevantDocs sq docs embs queryEmbedding threshold maxContextDocuments
  if rel.length = 0 then
    .noRelevant noRelevantMessage [] 0
  else
    .generateCall rel
      (String.intercalate "\n\n---\n\n"
        (rel.map (fun item => "Source: " ++ item.metadata.source ++ "\n" ++ scoredContent item)))

/-- C6: when every computed similarity is below the threshold (which
subsumes an empty corpus), `SupabaseRAGSystem.query` returns the
no-relevant-information response with empty context and confidence 0,
and does not call the external generation service; the outcome is an
ordinary return value, not an error. -/
theorem c6_no_relevant_docs (sq : ℚ → ℚ) (docs : List RagDocument)
    (embs : List EmbeddingEntry) (queryEmbedding : List ℚ)
    (threshold : ℚ) (maxContextDocuments : ℕ)
    (h : ∀ s ∈ similarities sq docs embs queryEmbedding, s.similarity < threshold) :
    supaQueryStep sq docs embs queryEmbedding threshold maxContextDocuments =
      .noRelevant noRelevantMessage [] 0 := by
  have hfil : (similarities sq docs embs queryEmbedding).filter
      (fun item => decide (threshold ≤ item.similarity)) = [] := by
    rw [List.filter_eq_nil_iff]
    intro s hs
    simp only [decide_eq_true_eq, not_le]
    exact h s hs
  unfold supaQueryStep relevantDocs
  rw [hfil]
  simp [sortDescBySim]

/-- C6 witness: with an empty in-memory corpus the query returns the
no-relevant-information outcome. -/
theorem c6_witness :
    (∀ s ∈ similarities (fun q : ℚ => q) [] [] [1], s.similarity < (3 : ℚ) / 10) ∧
    supaQueryStep (fun q : ℚ => q) [] [] [1] ((3 : ℚ) / 10) 3 =
      .noRelevant noRelevantMessage [] 0 :=
  ⟨by simp [similarities],
    c6_no_relevant_docs (fun q => q) [] [] [1] ((3 : ℚ) / 10) 3 (by simp [similarities])⟩

/-! ## Rate limiters

Two distinct limiters exist in the source: `SupabaseRAGSystem.enforceRateLimit`
(min-delay only, state `lastRequestTime`) and
`SambaNovaProvider.enforceRateLimit` (min-delay plus a per-minute counter,
state `lastRequestTime`/`requestCount`/`lastResetTime`).  Time is integer
milliseconds; a `setTimeout` sleep of `w` starting at `t` completes at
`t + w`, so `Date.now()` observed after the sleep is `t + w`. -/

/-- Model of `SupabaseRAGSystem.enforceRateLimit`, as a function of the configured
delay, the stored `lastRequestTime` and the entry time `now`.  Returns
the time slept and the updated `lastRequestTime` (set to `Date.now()`
after the optional sleep). -/
def enforceRateLimitSupabase (rateLimitDelayMs lastRequestTime now : ℤ) : ℤ × ℤ :=
  let timeSinceLastRequest := now - lastRequestTime
  if timeSinceLastRequest < rateLimitDelayMs then
    let delayNeeded := rateLimitDelayMs - timeSinceLastRequest
    (delayNeeded, now + delayNeeded)
  else
    (0, now)

/-- The mutable rate-limit state of `SambaNovaProvider`. -/
structure SambaState where
  lastRequestTime : ℤ
  requestCount : ℕ
  lastResetTime : ℤ
  deriving DecidableEq, Repr

/-- Model of `SambaNovaProvider.enforceRateLimit`: reset the counter if more than
60 000 ms have passed since `lastResetTime`; if the counter has reached
`maxRequestsPerMinute`, sleep until the window boundary and reset; then
apply the minimum inter-request delay — computed from
`timeSinceLastRequest`, which the source captures from `Date.now()` at
entry, *before* any window sleep.  Returns the updated state together
with the window sleep and the delay sleep. -/
def enforceRateLimitSamba (rateLimitDelayMs : ℤ) (maxRequestsPerMinute : ℕ)
    (s : SambaState) (now : ℤ) : SambaState × ℤ × ℤ :=
  let timeSinceLastRequest := now - s.lastRequestTime
  let s1 := if now - s.lastResetTime > 60000 then
      { s with requestCount := 0, lastResetTime := now }
    else s
  let windowStep : SambaState × ℤ :=
    if s1.requestCount ≥ maxRequestsPerMinute then
      let waitTime := 60000 - (now - s1.lastResetTime)
      if waitTime > 0 then
        ({ s1 with requestCount := 0, lastResetTime := now + waitTime }, waitTime)
      else (s1, 0)
    else (s1, 0)
  let delayWait : ℤ :=
    if timeSinceLastRequest < rateLimitDelayMs then
      rateLimitDelayMs - timeSinceLastRequest
    else 0
  ({ windowStep.1 with
      lastRequestTime := now + windowStep.2 + delayWait,
      requestCount := windowStep.1.requestCount + 1 },
   windowStep.2, delayWait)

/-- A back-to-back caller of the Supabase limiter: each call is issued at
the instant the previous one completes (its recorded `lastRequestTime`).
Returns the recorded completion times of `n` consecutive calls. -/
def supabaseCallTimes (rateLimitDelayMs : ℤ) (lastRequestTime : ℤ) :
    ℕ → List ℤ
  | 0 => []
  | n + 1 =>
    let step := enforceRateLimitSupabase rateLimitDelayMs lastRequestTime lastRequestTime
    step.2 :: supabaseCallTimes rateLimitDelayMs step.2 n

/-- C2 counterexample: with the configured values (`minDelayMs = 8000`,
`maxPerMinute = 5`), eight back-to-back calls paced by
`SupabaseRAGSystem.enforceRateLimit` — the only throttler on the
`SupabaseRAGSystem` embedding/generation path — are all admitted within
a span of 56 000 ms < 60 000 ms: more than `maxPerMinute` calls fall in
one rolling 60-second window, and this limiter shares no state with
`SambaNovaProvider`'s. -/
theorem c2_counterexample :
    supabaseCallTimes 8000 0 8 =
      [8000, 16000, 24000, 32000, 40000, 48000, 56000, 64000] ∧
    (64000 : ℤ) - 8000 < 60000 ∧ (8 : ℕ) > 5 := by
  refine ⟨?_, by decide, by decide⟩
  rfl

/-- C2 amended: the two limiters are separate, and each guarantees only
the minimum inter-call delay for the calls routed through it: every
invocation moves the recorded `lastRequestTime` forward by at least
`rateLimitDelayMs`. -/
theorem c2_amended_min_delay_only :
    (∀ rateLimitDelayMs lastRequestTime now : ℤ,
      rateLimitDelayMs ≤
        (enforceRateLimitSupabase rateLimitDelayMs lastRequestTime now).2 -
          lastRequestTime) ∧
    (∀ (rateLimitDelayMs : ℤ) (maxRequestsPerMinute : ℕ) (s : SambaState) (now : ℤ),
      rateLimitDelayMs ≤
        (enforceRateLimitSamba rateLimitDelayMs maxRequestsPerMinute s now).1.lastRequestTime -
          s.lastRequestTime) := by
  constructor
  · intro d last now
    unfold enforceRateLimitSupabase
    dsimp only
    split_ifs <;> omega
  · intro d maxPM s now
    unfold enforceRateLimitSamba
    dsimp only
    split_ifs <;> dsimp only <;> omega

/-- C5 counterexample: entering `SambaNovaProvider.enforceRateLimit` at
`now = 50000` with `lastRequestTime = 49000`, a full counter and
`lastResetTime = 10000` forces a 20 000 ms window wait *and then* a
7 000 ms delay wait — computed from the pre-wait clock — even though at
the end of the window wait 21 000 ms ≥ 8000 ms have already elapsed
since the last request, so a post-wait delay check would wait 0. -/
theorem c5_counterexample :
    enforceRateLimitSamba 8000 5 ⟨49000, 5, 10000⟩ 50000 =
      (⟨77000, 1, 70000⟩, 20000, 7000) ∧
    (0 : ℤ) < 20000 ∧ (0 : ℤ) < 7000 ∧
    (8000 : ℤ) ≤ (50000 + 20000) - 49000 := by
  refine ⟨by decide, by decide, by decide, by decide⟩

/-- C5 amended: the minimum-delay check of
`SambaNovaProvider.enforceRateLimit` is computed against the entry time,
before any window wait, so whenever the entry-time gap since the last
request is below `rateLimitDelayMs` the caller pays the full residual
delay wait in addition to whatever window wait occurred, and its
recorded completion time is the entry time plus both waits. -/
theorem c5_amended_prewait_delay (rateLimitDelayMs : ℤ) (maxRequestsPerMinute : ℕ)
    (s : SambaState) (now : ℤ)
    (h : now - s.lastRequestTime < rateLimitDelayMs) :
    (enforceRateLimitSamba rateLimitDelayMs maxRequestsPerMinute s now).2.2 =
      rateLimitDelayMs - (now - s.lastRequestTime) ∧
    (enforceRateLimitSamba rateLimitDelayMs maxRequestsPerMinute s now).1.lastRequestTime =
      now + (enforceRateLimitSamba rateLimitDelayMs maxRequestsPerMinute s now).2.1 +
        (enforceRateLimitSamba rateLimitDelayMs maxRequestsPerMinute s now).2.2 := by
  constructor
  · unfold enforceRateLimitSamba
    dsimp only
    split_ifs
    all_goals omega
  · rfl

/-- C5 amended, witness: the concrete full-counter state pays the
residual 7 000 ms delay after the 20 000 ms window wait. -/
theorem c5_amended_witness :
    (50000 : ℤ) - 49000 < 8000 ∧
    (enforceRateLimitSamba 8000 5 ⟨49000, 5, 10000⟩ 50000).2.2 =
      8000 - ((50000 : ℤ) - 49000) :=
  ⟨by decide,
    (c5_amended_prewait_delay 8000 5 ⟨49000, 5, 10000⟩ 50000 (by decide)).1⟩

/-! ## The Mastra query orchestrator (`mastra-rag-system.ts`) -/

/-- The apology text built in the `catch` branch of
`MastraRAGSystem.query`. -/
def apologyMessage (errorMessage : String) : String :=
  "I apologize, but I encountered an error while processing your query: " ++
    errorMessage ++ ". Please try again."

/-- The `QueryResult` record of `mastra-rag-system.ts` (the
`processingTime` string is omitted; it is wall-clock bookkeeping). -/
structure MastraQueryResult where
  response : String
  context : List String
  confidence : ℚ
  recommendations : List String
  deriving DecidableEq, Repr

/-- Model of `MastraRAGSystem.query` as a function of the outcome of
`agent.generate`: a normal completion is packaged with the fixed default
confidence 0.8, and any thrown error is caught and turned into the
apology response with confidence 0.0 — the function is total, so no
failure propagates to the HTTP layer. -/
def mastraQuery (agentOutcome : Except String String) : MastraQueryResult :=
  match agentOutcome with
  | .ok text =>
    { response := text, context := [], confidence := 8 / 10, recommendations := [] }
  | .error e =>
    { response := apologyMessage e, context := [], confidence := 0, recommendations := [] }

/-- The value returned by `vectorSearchTool.execute` in
`mastra-rag-system.ts`: a result list, an optional `resultCount` (set
only on success) and an optional `error` message. -/
structure VectorSearchToolResult where
  results : List String
  resultCount : Option ℕ
  error : Option String
  deriving DecidableEq, Repr

/-- Model of `vectorSearchTool.execute` as a function of the embedding call's
outcome and the Supabase `match_documents` RPC outcome.  A thrown
embedding error is caught by the tool's own `catch` and returned as
`{ results: [], error }` — a *successful* tool value; an RPC error is
likewise absorbed; only a success carries `resultCount`. -/
def vectorSearchToolExecute (embedOutcome : Except String (List ℚ))
    (searchOutcome : Except String (List String)) : VectorSearchToolResult :=
  match embedOutcome with
  | .error e => { results := [], resultCount := none, error := some e }
  | .ok _ =>
    match searchOutcome with
    | .error e => { results := [], resultCount := none, error := some e }
    | .ok rows => { results := rows, resultCount := some rows.length, error := none }

/-- C3 counterexample: when the external embedding call fails inside the
vector-search tool, the failure is absorbed at the *tool* boundary into
a successful empty-result value, the agent run completes normally, and
the query returns the default confidence 0.8 with the agent's text — not
an apology with confidence 0, contradicting the claim for the embedding
path. -/
theorem c3_counterexample :
    vectorSearchToolExecute (.error "embedding service down") (.ok []) =
      { results := [], resultCount := none, error := some "embedding service down" } ∧
    mastraQuery (.ok "Here is the answer.") =
      { response := "Here is the answer.", context := [],
        confidence := 8 / 10, recommendations := [] } ∧
    ((8 : ℚ) / 10 ≠ 0) ∧
    "Here is the answer." ≠ apologyMessage "embedding service down" := by
  refine ⟨rfl, rfl, by norm_num, by decide⟩

/-- C3 amended: a failure of the external *generation* call (the agent
run throwing) is caught at the orchestrator boundary and converted into
a successful response whose text is the apology message and whose
confidence is exactly 0, and is never propagated as a request failure;
an *embedding* failure inside the vector-search tool is instead caught
at the tool boundary and converted into a successful empty-result tool
value (also never propagated), after which the request completes with
the default confidence 0.8. -/
theorem c3_amended_error_paths :
    (∀ e : String,
      (mastraQuery (.error e)).response = apologyMessage e ∧
      (mastraQuery (.error e)).confidence = 0) ∧
    (∀ (e : String) (searchOutcome : Except String (List String)),
      vectorSearchToolExecute (.error e) searchOutcome =
        { results := [], resultCount := none, error := some e }) ∧
    (∀ text : String, (mastraQuery (.ok text)).confidence = 8 / 10) :=
  ⟨fun _ => ⟨rfl, rfl⟩, fun _ _ => rfl, fun _ => rfl⟩

/-! ## The in-memory document cache of `SupabaseRAGSystem` (C9) -/

/-- A row of the Supabase `documents` table as returned by `select`, with
the fields `loadDocumentsFromSupabase` reads. -/
structure SupabaseRow where
  id : String
  content : String
  source : String
  tags : List String
  embedding : List ℚ
  deriving DecidableEq, Repr

/-- The document built from a Supabase row in
`loadDocumentsFromSupabase`. -/
def rowToDocument (r : SupabaseRow) : RagDocument :=
  { id := r.id, content := r.content,
    metadata := { id := r.id, source := r.source, tags := r.tags } }

/-- The embedding entry built from a Supabase row in
`loadDocumentsFromSupabase`. -/
def rowToEmbedding (r : SupabaseRow) : EmbeddingEntry :=
  { text := r.content, embedding := r.embedding,
    metadata := { id := r.id, source := r.source, tags := r.tags } }

/-- The two in-memory arrays of `SupabaseRAGSystem`:
`this.documents` and `this.embeddings`. -/
structure RagMemory where
  documents : List RagDocument
  embeddings : List EmbeddingEntry
  deriving DecidableEq, Repr

/-- The cache-consistency invariant: both arrays have the same length
and agree pairwise on document ids. -/
def memInvariant (m : RagMemory) : Prop :=
  m.documents.length = m.embeddings.length ∧
  ∀ p ∈ m.documents.zip m.embeddings, p.1.id = p.2.metadata.id

/-- Model of `loadDocumentsFromSupabase`: when the store returns a non-empty row
list, both arrays are rebuilt from it; otherwise memory is untouched. -/
def loadDocumentsMem (rows : List SupabaseRow) (m : RagMemory) : RagMemory :=
  if rows.length > 0 then
    { documents := rows.map rowToDocument, embeddings := rows.map rowToEmbedding }
  else m

/-- The memory update at the end of `uploadFile`: the document's `id` and
`metadata.id` are overwritten with the database-generated id, then the
document is pushed onto `documents` and a matching
`{ text, embedding, metadata }` entry onto `embeddings`. -/
def uploadFileMem (insertedId : String) (doc0 : RagDocument) (embedding : List ℚ)
    (m : RagMemory) : RagMemory :=
  let doc := { doc0 with id := insertedId,
                         metadata := { doc0.metadata with id := insertedId } }
  { documents := m.documents ++ [doc],
    embeddings := m.embeddings ++
      [{ text := doc.content, embedding := embedding, metadata := doc.metadata }] }

/-- The id overwrite `doc.id = insertedData[index].id;
doc.metadata.id = insertedData[index].id` performed by `addDocuments`
on a document paired with its database-generated id. -/
def assignInsertedId (p : RagDocument × String) : RagDocument :=
  { p.1 with id := p.2, metadata := { p.1.metadata with id := p.2 } }

/-- The embedding entry `{ text: documents[index].content, embedding,
metadata: documents[index].metadata }` that `addDocuments` pushes for an
embedding paired with its same-index document. -/
def embeddingFromDocument (p : List ℚ × RagDocument) : EmbeddingEntry :=
  { text := p.2.content, embedding := p.1, metadata := p.2.metadata }

/-- The memory update at the end of `addDocuments`: each document's ids
are overwritten with the database-generated ids (indexwise), then the
documents are appended to `documents` and, for each embedding, an entry
built from the same-index document is appended to `embeddings`. -/
def addDocumentsMem (insertedIds : List String) (docs0 : List RagDocument)
    (embeddings : List (List ℚ)) (m : RagMemory) : RagMemory :=
  let docs := (docs0.zip insertedIds).map assignInsertedId
  { documents := m.documents ++ docs,
    embeddings := m.embeddings ++ (embeddings.zip docs).map embeddingFromDocument }

/-- The memory update of `deleteDocument`: both arrays are filtered by
the deleted id (`doc.id !== id` and `emb.metadata.id !== id`). -/
def deleteDocumentMem (id : String) (m : RagMemory) : RagMemory :=
  { documents := m.documents.filter (fun doc => !(doc.id == id)),
    embeddings := m.embeddings.filter (fun emb => !(emb.metadata.id == id)) }

/-- The memory update of `clearDocuments`: both arrays are emptied. -/
def clearDocumentsMem (_ : RagMemory) : RagMemory :=
  { documents := [], embeddings := [] }

theorem zip_appended_embeddings (es : List (List ℚ)) :
    ∀ (l : List RagDocument),
      ∀ p ∈ l.zip ((es.zip l).map embeddingFromDocument),
      p.2.metadata = p.1.metadata := by
  induction es with
  | nil =>
    intro l p hp
    simp at hp
  | cons e es ih =>
    intro l
    cases l with
    | nil =>
      intro p hp
      simp at hp
    | cons d ds =>
      intro p hp
      simp only [List.zip_cons_cons, List.map_cons] at hp
      rcases List.mem_cons.mp hp with rfl | hp'
      · rfl
      · exact ih ds p hp'

theorem memInvariant_filter {docs : List RagDocument} {embs : List EmbeddingEntry}
    (id : String)
    (hlen : docs.length = embs.length)
    (hids : ∀ p ∈ docs.zip embs, p.1.id = p.2.metadata.id) :
    (docs.filter (fun doc => !(doc.id == id))).length =
      (embs.filter (fun emb => !(emb.metadata.id == id))).length ∧
    ∀ p ∈ (docs.filter (fun doc => !(doc.id == id))).zip
        (embs.filter (fun emb => !(emb.metadata.id == id))),
      p.1.id = p.2.metadata.id := by
  induction docs generalizing embs with
  | nil =>
    cases embs with
    | nil => simp
    | cons e es => simp at hlen
  | cons d ds ih =>
    cases embs with
    | nil => simp at hlen
    | cons e es =>
      have hde : d.id = e.metadata.id := hids (d, e) (by simp)
      have hrest : ∀ p ∈ ds.zip es, p.1.id = p.2.metadata.id := by
        intro p hp
        exact hids p (List.mem_cons_of_mem _ hp)
      have hlen' : ds.length = es.length := by simpa using hlen
      rcases ih hlen' hrest with ⟨ihlen, ihids⟩
      by_cases hid : d.id = id
      · have he : e.metadata.id = id := hde ▸ hid
        simp only [List.filter_cons, hid, he, beq_self_eq_true, Bool.not_true,
          if_neg (by simp : ¬ (false = true))]
        exact ⟨ihlen, ihids⟩
      · have he : ¬ e.metadata.id = id := fun h => hid (hde.trans h)
        simp only [List.filter_cons, beq_eq_false_iff_ne, ne_eq,
          Bool.not_eq_true']
        rw [if_pos (by simpa using hid), if_pos (by simpa using he)]
        refine ⟨by simpa using ihlen, ?_⟩
        intro p hp
        rcases List.mem_cons.mp (by simpa using hp) with hp1 | hp2
        · rw [hp1]
          exact hde
        · exact ihids p hp2

/-- C9: each document-mutating memory update of `SupabaseRAGSystem` —
loading from the store, the upload-file push, the add-documents push,
delete-by-id, and clear-all — preserves the invariant that the
`documents` and `embeddings` arrays have equal length and agree pairwise
on document ids (for `addDocuments`, under the source's implicit
assumption that the store returns one inserted row per document and the
embedding service one vector per document). -/
theorem c9_memory_invariant (m : RagMemory) (hm : memInvariant m) :
    (∀ rows, memInvariant (loadDocumentsMem rows m)) ∧
    (∀ insertedId doc0 embedding,
      memInvariant (uploadFileMem insertedId doc0 embedding m)) ∧
    (∀ insertedIds docs0 embeddings,
      insertedIds.length = docs0.length → embeddings.length = docs0.length →
      memInvariant (addDocumentsMem insertedIds docs0 embeddings m)) ∧
    (∀ id, memInvariant (deleteDocumentMem id m)) ∧
    memInvariant (clearDocumentsMem m) := by
  obtain ⟨hlen, hids⟩ := hm
  refine ⟨?_, ?_, ?_, ?_, ?_⟩
  · intro rows
    unfold loadDocumentsMem
    split
    · refine ⟨by simp, ?_⟩
      intro p hp
      rw [List.zip_map'] at hp
      rcases List.mem_map.mp hp with ⟨r, _, rfl⟩
      rfl
    · exact ⟨hlen, hids⟩
  · intro insertedId doc0 embedding
    refine ⟨by simpa [uploadFileMem] using hlen, ?_⟩
    intro p hp
    unfold uploadFileMem at hp
    rw [List.zip_append (by simpa using hlen)] at hp
    rcases List.mem_append.mp hp with hp1 | hp2
    · exact hids p hp1
    · simp only [List.zip_cons_cons, List.zip_nil_right, List.mem_cons,
        List.not_mem_nil, or_false] at hp2
      rw [hp2]
  · intro insertedIds docs0 embeddings hlen1 hlen2
    have hA : ∀ d ∈ (docs0.zip insertedIds).map assignInsertedId,
        d.id = d.metadata.id := by
      intro d hd
      rcases List.mem_map.mp hd with ⟨q, _, rfl⟩
      rfl
    refine ⟨?_, ?_⟩
    · simp only [addDocumentsMem, List.length_append, List.length_map, List.length_zip]
      omega
    · intro p hp
      unfold addDocumentsMem at hp
      rw [List.zip_append (by simpa using hlen)] at hp
      rcases List.mem_append.mp hp with hp1 | hp2
      · exact hids p hp1
      · have hmeta := zip_appended_embeddings embeddings _ p hp2
        have hpd : p.1 ∈ (docs0.zip insertedIds).map assignInsertedId :=
          (List.of_mem_zip hp2).1
        rw [hmeta]
        exact hA p.1 hpd
  · intro id
    exact memInvariant_filter id hlen hids
  · exact ⟨rfl, by simp [clearDocumentsMem]⟩

/-- A concrete one-document memory used to exercise the cache
operations. -/
def demoMemory : RagMemory :=
  { documents := [⟨"1", "Revenue: 100", ⟨"1", "fin.csv", ["financial"]⟩⟩],
    embeddings := [⟨"Revenue: 100", [1, 0], ⟨"1", "fin.csv", ["financial"]⟩⟩] }

/-- C9 witness: a concrete memory satisfies the invariant, and adding a
document (with matching id and embedding counts) preserves it. -/
theorem c9_witness :
    memInvariant demoMemory ∧
    memInvariant (addDocumentsMem ["2"]
      [⟨"tmp", "More data", ⟨"tmp", "extra.txt", []⟩⟩] [[2, 1]] demoMemory) := by
  have hm : memInvariant demoMemory := ⟨rfl, by decide⟩
  exact ⟨hm, (c9_memory_invariant demoMemory hm).2.2.1 ["2"]
    [⟨"tmp", "More data", ⟨"tmp", "extra.txt", []⟩⟩] [[2, 1]] rfl rfl⟩
